import Mathlib

/-!
Shallow embedding of the go-auth repository (auth.go, login.go, userdb.go) in Lean 4,
together with proofs about the claims of its specification.

Modelling conventions:
* Go's `(T, error)` returns (which may also panic via `sys.Must`) are modelled by
  `GoResult T` with constructors `ok`, `err` and `panicked`.
* The SQLite store reached through `database/sql` is modelled as lists of table rows;
  a `QueryRow(...).Scan(...)` against a keyed SELECT is modelled as `List.find?` on the
  corresponding table.  Queries performed by an operation are additionally recorded in
  a trace (`List Query`) so that claims about which lookups are attempted can be stated.
* `database/sql`'s documented behaviour that `Scan` requires pointer destinations and
  fails on a destination passed by value is modelled by tagging each destination.
* Randomness (bcrypt salts, fresh uuids) and the clock are passed as explicit arguments.
-/

namespace GoAuth

/-- Outcome of a Go call: a normal value, a returned `error`, or a panic
(`sys.Must` panics instead of returning the error). -/
inductive GoResult (α : Type) where
  | ok (val : α)
  | err (msg : String)
  | panicked (msg : String)
deriving DecidableEq, Repr

/-- `GoResult.toOption` keeps the success value and forgets failures. -/
def GoResult.toOption {α : Type} : GoResult α → Option α
  | GoResult.ok v => some v
  | _ => none

/-! ### Model of golang.org/x/crypto/bcrypt (external library used by auth.go) -/

def bcryptDefaultCost : Nat := 10

/-- Model of a bcrypt hash string: it records the cost, the salt, and the password it
was derived from (verification succeeds exactly on that password). -/
structure BcryptHash where
  cost : Nat
  salt : Nat
  key : String
deriving DecidableEq, Repr

/-- Models bcrypt.GenerateFromPassword: rejects passwords longer than 72 bytes with an
error, otherwise produces the hash of the password under a fresh salt. -/
def bcryptGenerateFromPassword (salt : Nat) (password : String) (cost : Nat) :
    Except String BcryptHash :=
  if password.utf8ByteSize > 72 then
    Except.error "bcrypt: password length exceeds 72 bytes"
  else
    Except.ok { cost := cost, salt := salt, key := password }

/-- Models bcrypt.CompareHashAndPassword: succeeds iff the hash was derived from the
given password. -/
def bcryptCompareHashAndPassword (hashedPassword : BcryptHash) (password : String) :
    Except String Unit :=
  if hashedPassword.key = password then Except.ok ()
  else Except.error "crypto/bcrypt: hashedPassword is not the hash of the given password"

/-! ### Model of strconv.FormatUint(x, 10) (Go standard library) -/

/-- Little-endian decimal digit characters of `n`, with explicit fuel so the kernel can
evaluate it.  With fuel at least `n` this is the full digit list of `n`. -/
def decCharsAux : Nat → Nat → List Char
  | _, 0 => []
  | 0, _ => []
  | fuel+1, n => Nat.digitChar (n % 10) :: decCharsAux fuel (n / 10)

/-- Models strconv.FormatUint(n, 10): the decimal representation of `n`. -/
def FormatUint (n : Nat) : String :=
  if n = 0 then "0" else ((decCharsAux n n).reverse).asString

/-- Decodes a little-endian decimal digit character list back into a number. -/
def ofDecChars : List Char → Nat
  | [] => 0
  | c :: cs => (c.toNat - '0'.toNat) + 10 * ofDecChars cs

theorem digitChar_decode {d : Nat} (hd : d < 10) :
    (Nat.digitChar d).toNat - '0'.toNat = d := by
  interval_cases d <;> decide

theorem ofDecChars_decCharsAux : ∀ (fuel n : Nat), n ≤ fuel →
    ofDecChars (decCharsAux fuel n) = n := by
  intro fuel
  induction fuel with
  | zero =>
    intro n hn
    have : n = 0 := Nat.le_zero.mp hn
    subst this
    rfl
  | succ f ih =>
    intro n hn
    cases n with
    | zero => rfl
    | succ m =>
      have hdiv : (m + 1) / 10 ≤ f := by
        have h1 : (m + 1) / 10 < m + 1 := Nat.div_lt_self (Nat.succ_pos m) (by norm_num)
        omega
      have hmod : (m + 1) % 10 < 10 := Nat.mod_lt _ (by norm_num)
      show ofDecChars (Nat.digitChar ((m+1) % 10) :: decCharsAux f ((m+1) / 10)) = m + 1
      rw [ofDecChars, digitChar_decode hmod, ih _ hdiv]
      omega

theorem FormatUint_injective : Function.Injective FormatUint := by
  intro m n h
  by_cases hm : m = 0 <;> by_cases hn : n = 0
  · omega
  · exfalso
    rw [FormatUint, FormatUint, if_pos hm, if_neg hn] at h
    have h0 : ('0' :: []).asString = (decCharsAux n n).reverse.asString := h
    have h1 := List.asString_inj.mp h0
    have hlist : decCharsAux n n = ['0'] := by
      have hrev := congrArg List.reverse h1
      simpa using hrev.symm
    have hdec : ofDecChars (decCharsAux n n) = n := ofDecChars_decCharsAux n n le_rfl
    rw [hlist] at hdec
    simp [ofDecChars] at hdec
    omega
  · exfalso
    rw [FormatUint, FormatUint, if_neg hm, if_pos hn] at h
    have h0 : (decCharsAux m m).reverse.asString = ('0' :: []).asString := h
    have h1 := List.asString_inj.mp h0
    have hlist : decCharsAux m m = ['0'] := by
      have hrev := congrArg List.reverse h1
      simpa using hrev
    have hdec : ofDecChars (decCharsAux m m) = m := ofDecChars_decCharsAux m m le_rfl
    rw [hlist] at hdec
    simp [ofDecChars] at hdec
    omega
  · rw [FormatUint, FormatUint, if_neg hm, if_neg hn] at h
    have := List.asString_inj.mp h
    have hrev := congrArg List.reverse this
    simp only [List.reverse_reverse] at hrev
    have hm' := ofDecChars_decCharsAux m m le_rfl
    have hn' := ofDecChars_decCharsAux n n le_rfl
    rw [hrev] at hm'
    omega

theorem digitChar_utf8Size {d : Nat} (hd : d < 10) : (Nat.digitChar d).utf8Size = 1 := by
  interval_cases d <;> decide

theorem asString_utf8ByteSize_ascii :
    ∀ l : List Char, (∀ c ∈ l, c.utf8Size = 1) → l.asString.utf8ByteSize = l.length := by
  intro l
  induction l with
  | nil => intro _; rfl
  | cons c cs ih =>
    intro h
    have hstep : (c :: cs).asString.utf8ByteSize = cs.asString.utf8ByteSize + c.utf8Size :=
      rfl
    rw [hstep, ih (fun x hx => h x (List.mem_cons_of_mem c hx)), h c (by simp),
      List.length_cons]

theorem decCharsAux_chars :
    ∀ (fuel n : Nat) (c : Char), c ∈ decCharsAux fuel n →
      ∃ d, d < 10 ∧ c = Nat.digitChar d := by
  intro fuel
  induction fuel with
  | zero =>
    intro n c hc
    cases n <;> simp [decCharsAux] at hc
  | succ f ih =>
    intro n c hc
    cases n with
    | zero => simp [decCharsAux] at hc
    | succ m =>
      rcases List.mem_cons.mp hc with hc1 | hc2
      · exact ⟨(m + 1) % 10, Nat.mod_lt _ (by norm_num), hc1⟩
      · exact ih _ c hc2

theorem decCharsAux_length :
    ∀ (fuel n e : Nat), n ≤ fuel → n < 10 ^ e → (decCharsAux fuel n).length ≤ e := by
  intro fuel
  induction fuel with
  | zero =>
    intro n e hn _
    have h0 : n = 0 := Nat.le_zero.mp hn
    subst h0
    simp [decCharsAux]
  | succ f ih =>
    intro n e hn he
    cases n with
    | zero => simp [decCharsAux]
    | succ m =>
      cases e with
      | zero => simp at he
      | succ e2 =>
        show (Nat.digitChar ((m+1) % 10) :: decCharsAux f ((m+1) / 10)).length ≤ e2 + 1
        rw [List.length_cons]
        have hdiv : (m + 1) / 10 ≤ f := by
          have h1 : (m + 1) / 10 < m + 1 := Nat.div_lt_self (Nat.succ_pos m) (by norm_num)
          omega
        have hlt : (m + 1) / 10 < 10 ^ e2 := by
          rw [Nat.div_lt_iff_lt_mul (by norm_num)]
          calc m + 1 < 10 ^ (e2 + 1) := he
          _ = 10 ^ e2 * 10 := by ring
        have := ih ((m + 1) / 10) e2 hdiv hlt
        omega

/-- The decimal rendering of a 64-bit value takes at most 20 bytes. -/
theorem FormatUint_utf8ByteSize_le (n : Nat) (h : n < 2 ^ 64) :
    (FormatUint n).utf8ByteSize ≤ 20 := by
  unfold FormatUint
  split
  · decide
  · have hall : ∀ c ∈ (decCharsAux n n).reverse, c.utf8Size = 1 := by
      intro c hc
      rcases decCharsAux_chars n n c (List.mem_reverse.mp hc) with ⟨d, hd, hcd⟩
      rw [hcd]
      exact digitChar_utf8Size hd
    rw [asString_utf8ByteSize_ascii _ hall, List.length_reverse]
    exact decCharsAux_length n n 20 le_rfl
      (lt_trans h (by norm_num))

/-! ### Validators (userdb.go: CheckPassword, CheckUsername, CheckName, regexes) -/

def MIN_PASSWORD_LENGTH : Nat := 8
def MIN_NAME_LENGTH : Nat := 4
def STANDARD_ROLE : String := "Standard"

/-- A word character of Go's regexp class backslash-w: letters, digits, underscore. -/
def isWordChar (c : Char) : Bool := c.isAlpha || c.isDigit || c = '_'

/-- Character class of PASSWORD_REGEX: letters, digits and the punctuation set. -/
def passwordChar (c : Char) : Bool :=
  c.isAlpha || c.isDigit || c = '@' || c = '$' || c = '!' || c = '%' || c = '*' ||
  c = '#' || c = '?' || c = '&' || c = '.' || c = '~' || c = '^' || c = '-'

/-- PASSWORD_REGEX.MatchString: zero or more password characters. -/
def matchPasswordRegex (s : String) : Bool := s.toList.all passwordChar

/-- Character class of USERNAME_REGEX: word characters, hyphen, dot, at-sign. -/
def usernameChar (c : Char) : Bool := isWordChar c || c = '-' || c = '.' || c = '@'

/-- USERNAME_REGEX.MatchString: one or more username characters. -/
def matchUsernameRegex (s : String) : Bool := !s.toList.isEmpty && s.toList.all usernameChar

/-- Character class of NAME_REGEX: word characters, hyphen, space. -/
def nameChar (c : Char) : Bool := isWordChar c || c = '-' || c = ' '

/-- NAME_REGEX.MatchString: one or more name characters. -/
def matchNameRegex (s : String) : Bool := !s.toList.isEmpty && s.toList.all nameChar

/-- userdb.go CheckPassword: a nonempty password shorter than 8 bytes is rejected, and
the password must match PASSWORD_REGEX (the empty password does). -/
def CheckPassword (password : String) : GoResult Unit :=
  if password ≠ "" ∧ password.utf8ByteSize < MIN_PASSWORD_LENGTH then
    GoResult.err "password must be at least 8 characters"
  else if ¬ matchPasswordRegex password then
    GoResult.err "invalid password"
  else
    GoResult.ok ()

/-- userdb.go CheckUsername: at least 4 bytes and matching USERNAME_REGEX. -/
def CheckUsername (username : String) : GoResult Unit :=
  if username.utf8ByteSize < MIN_NAME_LENGTH then
    GoResult.err "username must be at least 4 characters"
  else if ¬ matchUsernameRegex username then
    GoResult.err "invalid username"
  else
    GoResult.ok ()

/-- userdb.go CheckName: at least 4 bytes and matching NAME_REGEX. -/
def CheckName (name : String) : GoResult Unit :=
  if name.utf8ByteSize < MIN_NAME_LENGTH then
    GoResult.err "name must be at least 4 characters"
  else if ¬ matchNameRegex name then
    GoResult.err "invalid name"
  else
    GoResult.ok ()

/-! ### Model of net/mail.ParseAddress (Go standard library) -/

/-- A parsed mail address (net/mail.Address): display name and addr-spec. -/
structure MailAddress where
  name : String
  address : String
deriving DecidableEq, Repr

/-- Models net/mail.ParseAddress for the plain addr-spec inputs this repository hands
to it: the input must contain exactly one at-sign, neither at the start nor at the end
(nonempty local part and domain); the parsed address is then the input itself. -/
def ParseAddress (s : String) : Except String MailAddress :=
  if s.toList.count '@' = 1 ∧ s.toList.head? ≠ some '@' ∧ s.toList.getLast? ≠ some '@' then
    Except.ok { name := "", address := s }
  else
    Except.error "mail: no valid address"

/-! ### auth.go: AuthUser, credential codec -/

/-- auth.go AuthUser. -/
structure AuthUser where
  Uuid : String
  FirstName : String
  LastName : String
  Username : String
  Email : String
  HashedPassword : BcryptHash
  EmailVerified : Bool
  CanSignIn : Bool
  Updated : Nat
deriving DecidableEq, Repr

/-- auth.go NewAuthUser. -/
def NewAuthUser (uuid firstName lastName userName email : String)
    (hashedPassword : BcryptHash) (isVerified canSignIn : Bool) (updated : Nat) :
    AuthUser :=
  { Uuid := uuid, FirstName := firstName, LastName := lastName, Username := userName,
    Email := email, HashedPassword := hashedPassword, EmailVerified := isVerified,
    CanSignIn := canSignIn, Updated := updated }

/-- auth.go HashPassword: bcrypt-hashes the password; `sys.Must` turns a bcrypt error
(over-length password) into a panic instead of returning it. -/
def HashPassword (salt : Nat) (password : String) : GoResult BcryptHash :=
  match bcryptGenerateFromPassword salt password bcryptDefaultCost with
  | Except.ok h => GoResult.ok h
  | Except.error e => GoResult.panicked e

/-- auth.go CheckPasswordsMatch: bcrypt comparison; any mismatch yields the single
generic error. -/
def CheckPasswordsMatch (hashedPassword : BcryptHash) (plainPwd : String) :
    GoResult Unit :=
  match bcryptCompareHashAndPassword hashedPassword plainPwd with
  | Except.error _ => GoResult.err "passwords do not match"
  | Except.ok _ => GoResult.ok ()

/-- auth.go CreateOtp: the OTP is the bcrypt hash of the account's last-updated
timestamp rendered in decimal. -/
def CreateOtp (salt : Nat) (user : AuthUser) : GoResult BcryptHash :=
  HashPassword salt (FormatUint user.Updated)

/-- auth.go CheckOtpValid: verifies the OTP against the decimal form of the account's
current last-updated timestamp; any mismatch is reported as an expired code. -/
def CheckOtpValid (user : AuthUser) (otp : BcryptHash) : GoResult Unit :=
  match CheckPasswordsMatch otp (FormatUint user.Updated) with
  | GoResult.ok _ => GoResult.ok ()
  | GoResult.err _ => GoResult.err "one time code has expired"
  | GoResult.panicked e => GoResult.panicked e

/-- The signup request consumed by CreateStandardUser. -/
structure SignupReq where
  FirstName : String
  LastName : String
  Email : String
  Password : String
deriving DecidableEq, Repr

/-- Modelled from the spec: the Go definition of SignupReq.HashedPassword is not under
src/ (only its caller CreateStandardUser is).  Per the spec's credential codec and
CreateAccount (the stored credential is the hash of the supplied password), it is
HashPassword applied to the request's password. -/
def SignupReq.HashedPasswordOf (salt : Nat) (user : SignupReq) : GoResult BcryptHash :=
  HashPassword salt user.Password

/-! ### Store model (the SQLite tables reached through database/sql) -/

/-- A row of the users table, with the columns the queries in userdb.go touch. -/
structure UserRow where
  uuid : String
  first_name : String
  last_name : String
  username : String
  email : String
  password : BcryptHash
  email_verified : Bool
  can_sign_in : Bool
  updated_on : Nat
deriving DecidableEq, Repr

/-- A row of the roles table. -/
structure RoleRow where
  uuid : String
  name : String
deriving DecidableEq, Repr

/-- A row of the user_roles association table. -/
structure UserRoleRow where
  user_uuid : String
  role_uuid : String
deriving DecidableEq, Repr

/-- The relational store. -/
structure Store where
  users : List UserRow
  roles : List RoleRow
  user_roles : List UserRoleRow
deriving DecidableEq, Repr

/-- A keyed lookup performed against the users table; operations record these in a
trace so that claims about which lookups are attempted can be stated. -/
inductive Query where
  | byUsername (username : String)
  | byEmail (address : String)
  | byUuid (uuid : String)
deriving DecidableEq, Repr

/-- FIND_USER_BY_EMAIL_SQL: the row whose email column equals the address. -/
def findUserRowByEmail (db : Store) (address : String) : Option UserRow :=
  db.users.find? (fun r => r.email == address)

/-- FIND_USER_BY_USERNAME_SQL: the row whose username column equals the name. -/
def findUserRowByUsername (db : Store) (username : String) : Option UserRow :=
  db.users.find? (fun r => r.username == username)

/-- FIND_USER_BY_UUID_SQL: the row whose uuid column equals the id. -/
def findUserRowByUuid (db : Store) (uuid : String) : Option UserRow :=
  db.users.find? (fun r => r.uuid == uuid)

namespace UserDb

/-- userdb.go (userdb *UserDb) FindUserByEmail, paired with the trace of the lookups
it performs. -/
def FindUserByEmail (db : Store) (email : Option MailAddress) :
    GoResult AuthUser × List Query :=
  match email with
  | none => (GoResult.err "no email address", [])
  | some e =>
    match findUserRowByEmail db e.address with
    | none => (GoResult.err "sql: no rows in result set", [Query.byEmail e.address])
    | some r =>
      (GoResult.ok (NewAuthUser r.uuid r.first_name r.last_name r.username e.address
        r.password r.email_verified r.can_sign_in r.updated_on),
       [Query.byEmail e.address])

/-- userdb.go (userdb *UserDb) FindUserByUsername: validates the username, queries the
username key, and on a missed query falls back to an email lookup when the input
parses as a mail address. -/
def FindUserByUsername (db : Store) (username : String) :
    GoResult AuthUser × List Query :=
  match CheckUsername username with
  | GoResult.err e => (GoResult.err e, [])
  | GoResult.panicked e => (GoResult.panicked e, [])
  | GoResult.ok _ =>
    match findUserRowByUsername db username with
    | some r =>
      (GoResult.ok (NewAuthUser r.uuid r.first_name r.last_name username r.email
        r.password r.email_verified r.can_sign_in r.updated_on),
       [Query.byUsername username])
    | none =>
      match ParseAddress username with
      | Except.error e => (GoResult.err e, [Query.byUsername username])
      | Except.ok e =>
        let res := FindUserByEmail db (some e)
        (res.1, Query.byUsername username :: res.2)

/-- userdb.go (userdb *UserDb) FindUserByUuid. -/
def FindUserByUuid (db : Store) (uuid : String) : GoResult AuthUser × List Query :=
  match findUserRowByUuid db uuid with
  | none => (GoResult.err "sql: no rows in result set", [Query.byUuid uuid])
  | some r =>
    (GoResult.ok (NewAuthUser uuid r.first_name r.last_name r.username r.email
      r.password r.email_verified r.can_sign_in r.updated_on),
     [Query.byUuid uuid])

/-- userdb.go (userdb *UserDb) FindUserById: username lookup, then an email lookup if
the id parses as a mail address, then a uuid lookup. -/
def FindUserById (db : Store) (id : String) : GoResult AuthUser × List Query :=
  let r1 := FindUserByUsername db id
  match r1.1 with
  | GoResult.ok u => (GoResult.ok u, r1.2)
  | GoResult.panicked e => (GoResult.panicked e, r1.2)
  | GoResult.err _ =>
    match ParseAddress id with
    | Except.ok email =>
      let r2 := FindUserByEmail db (some email)
      match r2.1 with
      | GoResult.ok u => (GoResult.ok u, r1.2 ++ r2.2)
      | GoResult.panicked e => (GoResult.panicked e, r1.2 ++ r2.2)
      | GoResult.err _ =>
        let r3 := FindUserByUuid db id
        (r3.1, r1.2 ++ r2.2 ++ r3.2)
    | Except.error _ =>
      let r3 := FindUserByUuid db id
      (r3.1, r1.2 ++ r3.2)

/-! ### Scan destination discipline of database/sql -/

/-- How a destination is passed to database/sql's Scan: as a pointer or by value. -/
inductive ScanDest where
  | byPtr
  | byVal
deriving DecidableEq, Repr

/-- Models database/sql's Scan over its destination list: it errors unless every
destination is a pointer ("destination not a pointer"). -/
def scanDests (dests : List ScanDest) : Except String Unit :=
  if dests.all (fun d => d == ScanDest.byPtr) then Except.ok ()
  else Except.error "sql: Scan error on column: destination not a pointer"

/-- userdb.go (userdb *UserDb) Role: looks the role up by name, then calls
Scan(role.Uuid, role.Name) — both destinations passed by value, not by pointer. -/
def Role (db : Store) (name : String) : Except String RoleRow :=
  match db.roles.find? (fun r => r.name == name) with
  | none => Except.error "sql: no rows in result set"
  | some r =>
    match scanDests [ScanDest.byVal, ScanDest.byVal] with
    | Except.error e => Except.error e
    | Except.ok _ => Except.ok r

/-- userdb.go (userdb *UserDb) AddUserRole: resolves the role by name and inserts the
user_roles association; either failure is reported as "role not available". -/
def AddUserRole (db : Store) (user : AuthUser) (role : String) :
    Store × GoResult Unit :=
  match Role db role with
  | Except.error _ => (db, GoResult.err (role ++ " role not available"))
  | Except.ok r =>
    ({ db with user_roles := db.user_roles ++ [{ user_uuid := user.Uuid, role_uuid := r.uuid }] },
     GoResult.ok ())

/-! ### Mutating statements -/

/-- Modelled from the spec: SET_PASSWORD_SQL only sets the password column, and the
schema that maintains updated_on is not under src/; per the spec every successful
account write "implicitly advances the account's last-updated timestamp", so the
store's execution of the update also sets updated_on to the current clock `now`. -/
def execSetPassword (db : Store) (now : Nat) (hash : BcryptHash) (uuid : String) :
    Store :=
  { db with
    users := db.users.map (fun r =>
      if r.uuid == uuid then { r with password := hash, updated_on := now } else r) }

/-- userdb.go (userdb *UserDb) SetPassword: validates the password, hashes it (which
panics on a bcrypt error), and executes SET_PASSWORD_SQL. -/
def SetPassword (db : Store) (salt now : Nat) (uuid : String) (password : String) :
    Store × GoResult Unit :=
  match CheckPassword password with
  | GoResult.err e => (db, GoResult.err e)
  | GoResult.panicked e => (db, GoResult.panicked e)
  | GoResult.ok _ =>
    match HashPassword salt password with
    | GoResult.err e => (db, GoResult.err e)
    | GoResult.panicked e => (db, GoResult.panicked e)
    | GoResult.ok hash => (execSetPassword db now hash uuid, GoResult.ok ())

/-- Modelled from the spec: CREATE_USER_SQL inserts (uuid, first_name, last_name,
username, email, password); the schema's column defaults are not under src/, and per
the spec a freshly registered account has email_verified = false; can_sign_in's
default is irrelevant to the claims and modelled as true, updated_on as the clock. -/
def execCreateUser (db : Store) (now : Nat) (uuid firstName lastName username email : String)
    (hash : BcryptHash) : Store :=
  let row : UserRow :=
    { uuid := uuid, first_name := firstName, last_name := lastName,
      username := username, email := email, password := hash,
      email_verified := false, can_sign_in := true, updated_on := now }
  { db with users := db.users ++ [row] }

/-- userdb.go (userdb *UserDb) CreateStandardUser: validate the password, parse the
email, look the email up; create the account when it is not found, reject when it is
found verified, overwrite the password when it is found unverified; finally grant the
Standard role, discarding the grant's error. -/
def CreateStandardUser (db : Store) (uuid : String) (salt now : Nat) (user : SignupReq) :
    Store × GoResult AuthUser :=
  match CheckPassword user.Password with
  | GoResult.err e => (db, GoResult.err e)
  | GoResult.panicked e => (db, GoResult.panicked e)
  | GoResult.ok _ =>
    match ParseAddress user.Email with
    | Except.error e => (db, GoResult.err e)
    | Except.ok email =>
      match (FindUserByEmail db (some email)).1 with
      | GoResult.panicked e => (db, GoResult.panicked e)
      | GoResult.err _ =>
        match SignupReq.HashedPasswordOf salt user with
        | GoResult.err e => (db, GoResult.err e)
        | GoResult.panicked e => (db, GoResult.panicked e)
        | GoResult.ok hash =>
          let db1 := execCreateUser db now uuid user.FirstName user.LastName
            email.address email.address hash
          match (FindUserByEmail db1 (some email)).1 with
          | GoResult.err e => (db1, GoResult.err e)
          | GoResult.panicked e => (db1, GoResult.panicked e)
          | GoResult.ok authUser =>
            let granted := AddUserRole db1 authUser STANDARD_ROLE
            (granted.1, GoResult.ok authUser)
      | GoResult.ok authUser =>
        if authUser.EmailVerified then
          (db, GoResult.err "user already registered:please sign up with another email address")
        else
          match SetPassword db salt now authUser.Uuid user.Password with
          | (db1, GoResult.err _) =>
            (db1, GoResult.err "user already registered:please sign up with another email address")
          | (db1, GoResult.panicked e) => (db1, GoResult.panicked e)
          | (db1, GoResult.ok _) =>
            let granted := AddUserRole db1 authUser STANDARD_ROLE
            (granted.1, GoResult.ok authUser)

end UserDb

/-! ### Role/permission aggregation (userdb.go PublicUserRolePermissions) -/

/-- auth.go PublicRole: a role name with its permission names. -/
structure PublicRole where
  Name : String
  Permissions : List String
deriving DecidableEq, Repr

/-- A row of the result set of USER_ROLE_PERMISSIONS_SQL. -/
structure RolePermRow where
  role_uuid : String
  role_name : String
  permission_uuid : String
  permission_name : String
deriving DecidableEq, Repr

/-- Applies `f` to the last element of a list (the loop's `ret[len(ret)-1]` write). -/
def modifyLast (f : PublicRole → PublicRole) : List PublicRole → List PublicRole
  | [] => []
  | [x] => [f x]
  | x :: y :: t => x :: modifyLast f (y :: t)

namespace UserDb

/-- The row loop of userdb.go PublicUserRolePermissions: a new group is appended when
the row's role uuid differs from currentRole (initialised to the empty string), and
the row's permission name is appended to the last group; indexing the last group of
an empty group list is a Go runtime panic. -/
def publicRolesLoop : List RolePermRow → String → List PublicRole →
    GoResult (List PublicRole)
  | [], _, ret => GoResult.ok ret
  | row :: rest, currentRole, ret =>
    let step :=
      if row.role_uuid == currentRole then (ret, currentRole)
      else (ret ++ [{ Name := row.role_name, Permissions := [] }], row.role_uuid)
    match step.1 with
    | [] => GoResult.panicked "runtime error: index out of range"
    | _ :: _ =>
      publicRolesLoop rest step.2
        (modifyLast (fun g => { g with Permissions := g.Permissions ++ [row.permission_name] })
          step.1)

/-- userdb.go (userdb *UserDb) PublicUserRolePermissions, as a function of the row
sequence the store returns for USER_ROLE_PERMISSIONS_SQL. -/
def PublicUserRolePermissions (rows : List RolePermRow) : GoResult (List PublicRole) :=
  publicRolesLoop rows "" []

end UserDb

/-! ### Spec-side definitions, used to compare the code against the spec's words -/

/-- Follows the spec's words: the username strategy validates username syntax, then
performs exactly one lookup by the username key. -/
def usernameStrategySpec (db : Store) (id : String) : Option AuthUser :=
  match CheckUsername id with
  | GoResult.ok _ =>
    match findUserRowByUsername db id with
    | some r => some (NewAuthUser r.uuid r.first_name r.last_name id r.email
        r.password r.email_verified r.can_sign_in r.updated_on)
    | none => none
  | _ => none

/-- Follows the spec's words: the email strategy performs exactly one lookup by the
email key. -/
def emailStrategySpec (db : Store) (a : MailAddress) : Option AuthUser :=
  match findUserRowByEmail db a.address with
  | some r => some (NewAuthUser r.uuid r.first_name r.last_name r.username a.address
      r.password r.email_verified r.can_sign_in r.updated_on)
  | none => none

/-- Follows the spec's words: the uuid strategy performs exactly one lookup by the
uuid key. -/
def uuidStrategySpec (db : Store) (id : String) : Option AuthUser :=
  match findUserRowByUuid db id with
  | some r => some (NewAuthUser id r.first_name r.last_name r.username r.email
      r.password r.email_verified r.can_sign_in r.updated_on)
  | none => none

/-- Follows the spec's words: try, in order, (1) username lookup, (2) — if the token
parses as an email address — email lookup, (3) uuid lookup; return the first strategy
that succeeds, and fail only after all strategies are exhausted. -/
def ResolveIdentifierSpec (db : Store) (id : String) : Option AuthUser :=
  match usernameStrategySpec db id with
  | some u => some u
  | none =>
    match ParseAddress id with
    | Except.ok a =>
      match emailStrategySpec db a with
      | some u => some u
      | none => uuidStrategySpec db id
    | Except.error _ => uuidStrategySpec db id

/-- Maximal consecutive runs of rows sharing a role uuid. -/
def uuidRuns : List RolePermRow → List (List RolePermRow)
  | [] => []
  | r :: rest =>
    (r :: rest.takeWhile (fun x => x.role_uuid == r.role_uuid)) ::
      uuidRuns (rest.dropWhile (fun x => x.role_uuid == r.role_uuid))
termination_by rows => rows.length
decreasing_by
  have := (List.dropWhile_suffix (fun x => x.role_uuid == r.role_uuid) (l := rest)).length_le
  simp only [List.length_cons]
  omega

/-- The grouping the spec describes: one PublicRole per maximal run of equal role id,
named after the run's role name, holding the run's permission names in order. -/
def expectedGroups (rows : List RolePermRow) : List PublicRole :=
  (uuidRuns rows).map (fun run =>
    { Name := (run.headD ⟨"", "", "", ""⟩).role_name,
      Permissions := run.map (fun r => r.permission_name) })

/-- Lexicographic comparison of char lists by code point — the order SQLite's default
BINARY collation gives the ASCII text in this schema. -/
def lexLeChars : List Char → List Char → Bool
  | [], _ => true
  | _ :: _, [] => false
  | a :: as, b :: bs =>
    if a.toNat < b.toNat then true
    else if b.toNat < a.toNat then false
    else lexLeChars as bs

/-- String comparison matching the store's ORDER BY on this schema's ASCII text. -/
def strLe (a b : String) : Bool := lexLeChars a.toList b.toList

/-- Rows ordered as by "ORDER BY roles.name, permissions.name". -/
def rowLe (a b : RolePermRow) : Bool :=
  if a.role_name == b.role_name then strLe a.permission_name b.permission_name
  else strLe a.role_name b.role_name

/-- Adjacent-pairs comparison: the list is sorted for a total order `le`. -/
def chainLe {α : Type} (le : α → α → Bool) : List α → Bool
  | [] => true
  | [_] => true
  | a :: b :: t => le a b && chainLe le (b :: t)

/-- Query discriminator: is this an email-key lookup? -/
def Query.isByEmail : Query → Bool
  | Query.byEmail _ => true
  | _ => false

/-- Query discriminator: is this a username-key lookup? -/
def Query.isByUsername : Query → Bool
  | Query.byUsername _ => true
  | _ => false

/-- Query discriminator: is this a uuid-key lookup? -/
def Query.isByUuid : Query → Bool
  | Query.byUuid _ => true
  | _ => false

/-! ### Helper lemmas -/

/-- CheckUsername either succeeds or returns an error; it never panics. -/
lemma checkUsername_cases (s : String) :
    CheckUsername s = GoResult.ok () ∨ ∃ e, CheckUsername s = GoResult.err e := by
  unfold CheckUsername
  split
  · exact Or.inr ⟨_, rfl⟩
  · split
    · exact Or.inr ⟨_, rfl⟩
    · exact Or.inl rfl

/-- CheckPassword either succeeds or returns an error; it never panics. -/
lemma checkPassword_cases (s : String) :
    CheckPassword s = GoResult.ok () ∨ ∃ e, CheckPassword s = GoResult.err e := by
  unfold CheckPassword
  split
  · exact Or.inr ⟨_, rfl⟩
  · split
    · exact Or.inr ⟨_, rfl⟩
    · exact Or.inl rfl

/-- The by-value Scan destinations of userdb.go's Role make every Scan fail, so Role
never returns a populated role. -/
lemma role_never_ok (db : Store) (name : String) (r : RoleRow) :
    UserDb.Role db name ≠ Except.ok r := by
  unfold UserDb.Role
  cases db.roles.find? (fun x => x.name == name) <;> simp [UserDb.scanDests]

/-- AddUserRole always fails with "role not available" and leaves the store
unchanged, because Role never returns a role. -/
lemma addUserRole_always_fails (db : Store) (user : AuthUser) (role : String) :
    UserDb.AddUserRole db user role = (db, GoResult.err (role ++ " role not available")) := by
  unfold UserDb.AddUserRole
  cases h : UserDb.Role db role with
  | error e => rfl
  | ok r => exact absurd h (role_never_ok db role r)

/-- CheckName either succeeds or returns an error; it never panics. -/
lemma checkName_cases (s : String) :
    CheckName s = GoResult.ok () ∨ ∃ e, CheckName s = GoResult.err e := by
  unfold CheckName
  split
  · exact Or.inr ⟨_, rfl⟩
  · split
    · exact Or.inr ⟨_, rfl⟩
    · exact Or.inl rfl

/-- CheckPasswordsMatch reports any mismatch as its single generic error and never
panics. -/
lemma checkPasswordsMatch_cases (h : BcryptHash) (q : String) :
    CheckPasswordsMatch h q = GoResult.ok () ∨
    CheckPasswordsMatch h q = GoResult.err "passwords do not match" := by
  unfold CheckPasswordsMatch bcryptCompareHashAndPassword
  split
  · exact Or.inr rfl
  · exact Or.inl rfl

/-- CheckOtpValid reports any mismatch as the expired-code error and never panics. -/
lemma checkOtpValid_cases (u : AuthUser) (otp : BcryptHash) :
    CheckOtpValid u otp = GoResult.ok () ∨
    CheckOtpValid u otp = GoResult.err "one time code has expired" := by
  rcases checkPasswordsMatch_cases otp (FormatUint u.Updated) with hm | hm <;>
    simp [CheckOtpValid, hm]

/-- HashPassword returns the hash for a password of at most 72 bytes. -/
lemma hashPassword_ok_of_le (salt : Nat) (password : String)
    (h : password.utf8ByteSize ≤ 72) :
    HashPassword salt password =
      GoResult.ok { cost := bcryptDefaultCost, salt := salt, key := password } := by
  unfold HashPassword bcryptGenerateFromPassword
  rw [if_neg (by omega)]

/-- HashPassword panics on a password longer than 72 bytes. -/
lemma hashPassword_panicked_of_gt (salt : Nat) (password : String)
    (h : 72 < password.utf8ByteSize) :
    HashPassword salt password =
      GoResult.panicked "bcrypt: password length exceeds 72 bytes" := by
  unfold HashPassword bcryptGenerateFromPassword
  rw [if_pos (by omega)]

/-- A HashPassword panic can only come from an over-length password. -/
lemma hashPassword_panicked_inv (salt : Nat) (password e : String)
    (h : HashPassword salt password = GoResult.panicked e) :
    72 < password.utf8ByteSize := by
  by_cases hle : password.utf8ByteSize ≤ 72
  · rw [hashPassword_ok_of_le salt password hle] at h
    cases h
  · omega

/-- FindUserByEmail never panics. -/
lemma findUserByEmail_no_panic (db : Store) (em : Option MailAddress) (e : String) :
    (UserDb.FindUserByEmail db em).1 ≠ GoResult.panicked e := by
  cases em with
  | none => simp [UserDb.FindUserByEmail]
  | some a =>
    cases h2 : findUserRowByEmail db a.address <;>
      simp [UserDb.FindUserByEmail, h2]

/-- FindUserByUsername never panics. -/
lemma findUserByUsername_no_panic (db : Store) (username : String) (e : String) :
    (UserDb.FindUserByUsername db username).1 ≠ GoResult.panicked e := by
  rcases checkUsername_cases username with hcu | ⟨e0, hcu⟩
  · cases hrow : findUserRowByUsername db username with
    | some r => simp [UserDb.FindUserByUsername, hcu, hrow]
    | none =>
      cases hpa : ParseAddress username with
      | error e1 => simp [UserDb.FindUserByUsername, hcu, hrow, hpa]
      | ok a =>
        simp only [UserDb.FindUserByUsername, hcu, hrow, hpa]
        exact findUserByEmail_no_panic db (some a) e
  · simp [UserDb.FindUserByUsername, hcu]

/-- FindUserById never panics. -/
lemma findUserById_no_panic (db : Store) (id : String) (e : String) :
    (UserDb.FindUserById db id).1 ≠ GoResult.panicked e := by
  cases h1 : (UserDb.FindUserByUsername db id).1 with
  | ok u => simp [UserDb.FindUserById, h1]
  | panicked e1 => exact absurd h1 (findUserByUsername_no_panic db id e1)
  | err e1 =>
    cases hpa : ParseAddress id with
    | error e2 =>
      cases hI : findUserRowByUuid db id <;>
        simp [UserDb.FindUserById, UserDb.FindUserByUuid, h1, hpa, hI]
    | ok a =>
      cases h2 : (UserDb.FindUserByEmail db (some a)).1 with
      | ok u => simp [UserDb.FindUserById, h1, hpa, h2]
      | panicked e2 => exact absurd h2 (findUserByEmail_no_panic db (some a) e2)
      | err e2 =>
        cases hI : findUserRowByUuid db id <;>
          simp [UserDb.FindUserById, UserDb.FindUserByUuid, h1, hpa, h2, hI]

/-- SetPassword never panics on a password of at most 72 bytes. -/
lemma setPassword_no_panic_of_le (db : Store) (salt now : Nat) (uuid password : String)
    (hle : password.utf8ByteSize ≤ 72) (e : String) :
    (UserDb.SetPassword db salt now uuid password).2 ≠ GoResult.panicked e := by
  rcases checkPassword_cases password with hcp | ⟨e0, hcp⟩
  · simp [UserDb.SetPassword, hcp, hashPassword_ok_of_le salt password hle]
  · simp [UserDb.SetPassword, hcp]

/-- A SetPassword panic requires a validated password longer than 72 bytes. -/
lemma setPassword_panicked_inv (db : Store) (salt now : Nat) (uuid password e : String)
    (h : (UserDb.SetPassword db salt now uuid password).2 = GoResult.panicked e) :
    CheckPassword password = GoResult.ok () ∧ 72 < password.utf8ByteSize := by
  rcases checkPassword_cases password with hcp | ⟨e0, hcp⟩
  · refine ⟨hcp, ?_⟩
    cases hph : HashPassword salt password with
    | ok hash => simp [UserDb.SetPassword, hcp, hph] at h
    | err e1 => simp [UserDb.SetPassword, hcp, hph] at h
    | panicked e1 => exact hashPassword_panicked_inv salt password e1 hph
  · simp [UserDb.SetPassword, hcp] at h

/-- CreateStandardUser never panics on a request password of at most 72 bytes. -/
lemma createStandardUser_no_panic_of_le (db : Store) (uuid : String) (salt now : Nat)
    (req : SignupReq) (hle : req.Password.utf8ByteSize ≤ 72) (e : String) :
    (UserDb.CreateStandardUser db uuid salt now req).2 ≠ GoResult.panicked e := by
  rcases checkPassword_cases req.Password with hcp | ⟨e0, hcp⟩
  case inr => simp [UserDb.CreateStandardUser, hcp]
  cases hpa : ParseAddress req.Email with
  | error e1 => simp [UserDb.CreateStandardUser, hcp, hpa]
  | ok email =>
    cases hfe : (UserDb.FindUserByEmail db (some email)).1 with
    | panicked e1 => exact absurd hfe (findUserByEmail_no_panic db (some email) e1)
    | err e1 =>
      cases hhp : SignupReq.HashedPasswordOf salt req with
      | err e2 => simp [UserDb.CreateStandardUser, hcp, hpa, hfe, hhp]
      | panicked e2 =>
        have hgt : 72 < req.Password.utf8ByteSize :=
          hashPassword_panicked_inv salt req.Password e2 hhp
        omega
      | ok hash =>
        cases hfe2 : (UserDb.FindUserByEmail (UserDb.execCreateUser db now uuid
            req.FirstName req.LastName email.address email.address hash)
            (some email)).1 with
        | panicked e3 => exact absurd hfe2 (findUserByEmail_no_panic _ _ e3)
        | err e3 => simp [UserDb.CreateStandardUser, hcp, hpa, hfe, hhp, hfe2]
        | ok authUser =>
          simp only [UserDb.CreateStandardUser, hcp, hpa, hfe, hhp, hfe2,
            addUserRole_always_fails]
          simp
    | ok authUser =>
      by_cases hv : authUser.EmailVerified
      · simp [UserDb.CreateStandardUser, hcp, hpa, hfe, hv]
      · cases hsp : UserDb.SetPassword db salt now authUser.Uuid req.Password with
        | mk db1 res =>
          cases res with
          | err e4 => simp [UserDb.CreateStandardUser, hcp, hpa, hfe, hv, hsp]
          | panicked e4 =>
            have hp2 : (UserDb.SetPassword db salt now authUser.Uuid req.Password).2 =
                GoResult.panicked e4 := by rw [hsp]
            exact absurd hp2 (setPassword_no_panic_of_le db salt now authUser.Uuid
              req.Password hle e4)
          | ok _ =>
            simp only [UserDb.CreateStandardUser, hcp, hpa, hfe, hv, hsp,
              addUserRole_always_fails]
            simp

/-- The grouping loop panics when the first row carries an empty role uuid: the
sentinel currentRole starts as the empty string, no group is opened, and the write to
the last group indexes an empty slice. -/
lemma publicUserRolePermissions_empty_first_uuid (r : RolePermRow)
    (rest : List RolePermRow) (hr : r.role_uuid = "") :
    UserDb.PublicUserRolePermissions (r :: rest) =
      GoResult.panicked "runtime error: index out of range" := by
  unfold UserDb.PublicUserRolePermissions
  rw [UserDb.publicRolesLoop]
  simp [hr]

/-! ### Concrete fixtures used by closed theorems -/

/-- A store holding no users, the Standard role, and no role grants. -/
def freshStore : Store :=
  { users := [], roles := [{ uuid := "r1", name := "Standard" }], user_roles := [] }

/-- A well-formed signup request with a fresh email. -/
def aliceReq : SignupReq :=
  { FirstName := "Alice", LastName := "Smith", Email := "alice@example.com",
    Password := "password1" }

/-- The account CreateStandardUser produces for aliceReq against freshStore. -/
def aliceUser : AuthUser :=
  { Uuid := "u1", FirstName := "Alice", LastName := "Smith",
    Username := "alice@example.com", Email := "alice@example.com",
    HashedPassword := { cost := bcryptDefaultCost, salt := 0, key := "password1" },
    EmailVerified := false, CanSignIn := true, Updated := 10 }

/-- The users-table row CreateStandardUser inserts for aliceReq. -/
def aliceRow : UserRow :=
  { uuid := "u1", first_name := "Alice", last_name := "Smith",
    username := "alice@example.com", email := "alice@example.com",
    password := { cost := bcryptDefaultCost, salt := 0, key := "password1" },
    email_verified := false, can_sign_in := true, updated_on := 10 }

/-- The single users-table row of bobStore: a verified account whose username differs
from its email address. -/
def bobRow : UserRow :=
  { uuid := "u2", first_name := "Bob", last_name := "Jones",
    username := "bobby", email := "bob@example.com",
    password := { cost := bcryptDefaultCost, salt := 1, key := "password2" },
    email_verified := true, can_sign_in := true, updated_on := 5 }

/-- A store with a single account whose username differs from its email. -/
def bobStore : Store :=
  { users := [bobRow], roles := [], user_roles := [] }

/-- A password of 73 bytes: CheckPassword accepts it, bcrypt rejects it. -/
def overlongPassword : String := String.mk (List.replicate 73 'a')

/-! ### Claim C7 -/

/-- Claim C7, counterexample: the empty password has length below 8 yet CheckPassword
accepts it (the Go code only applies the length check to nonempty passwords). -/
theorem checkPassword_accepts_empty_password :
    "".utf8ByteSize < MIN_PASSWORD_LENGTH ∧ CheckPassword "" = GoResult.ok () :=
  ⟨by decide, by decide⟩

/-- Claim C7 (amended): every nonempty password shorter than 8 bytes is rejected by
CheckPassword with the minimum-length validation error. -/
theorem checkPassword_rejects_short_nonempty (p : String) (h1 : p ≠ "")
    (h2 : p.utf8ByteSize < MIN_PASSWORD_LENGTH) :
    CheckPassword p = GoResult.err "password must be at least 8 characters" := by
  unfold CheckPassword
  rw [if_pos ⟨h1, h2⟩]

/-- Witness for the amended claim C7 at the concrete password "short". -/
theorem checkPassword_rejects_short_nonempty_witness :
    CheckPassword "short" = GoResult.err "password must be at least 8 characters" :=
  checkPassword_rejects_short_nonempty "short" (by decide) (by decide)

/-! ### Claim C10 -/

/-- Claim C10: Role never returns a populated role — its Scan is called with the
struct fields passed by value — and consequently AddUserRole fails with the
"role not available" error for every store, account and role name, including stores
whose roles table holds the requested role. -/
theorem role_scan_bug_breaks_role_grant (db : Store) (name : String) (user : AuthUser)
    (roleName : String) :
    (∀ r, UserDb.Role db name ≠ Except.ok r) ∧
    UserDb.AddUserRole db user roleName =
      (db, GoResult.err (roleName ++ " role not available")) :=
  ⟨fun r => role_never_ok db name r, addUserRole_always_fails db user roleName⟩

/-! ### Claim C9 -/

/-- Claim C9, counterexample: a 73-byte password passes CheckPassword, yet
HashPassword panics (sys.Must) when bcrypt reports the over-length error instead of
returning it. -/
theorem hashPassword_panics_on_overlong_password :
    CheckPassword overlongPassword = GoResult.ok () ∧
    HashPassword 0 overlongPassword =
      GoResult.panicked "bcrypt: password length exceeds 72 bytes" :=
  ⟨by decide, by decide⟩


/-- The store CreateStandardUser leaves behind after registering aliceReq against
freshStore: the new row is inserted, but no role association is. -/
def aliceStoreAfter : Store :=
  { users := [aliceRow], roles := [{ uuid := "r1", name := "Standard" }],
    user_roles := [] }

/-- A signup request for bobStore's verified email with an invalid password. -/
def shortPwdReq : SignupReq :=
  { FirstName := "Bob", LastName := "Jones", Email := "bob@example.com",
    Password := "short" }

/-- A signup request for bobStore's verified email with a valid password. -/
def bobReq : SignupReq :=
  { FirstName := "Bob", LastName := "Jones", Email := "bob@example.com",
    Password := "password9" }

/-! ### Claim C1 -/

/-- Claim C1, evaluated at the failing input: registering a fresh email with a valid
password does create exactly one account with email_verified = false, but the grant
of the "Standard" role does not succeed: Role's Scan receives its destinations by
value and always fails, AddUserRole reports "role not available", and the account
ends up with no role even though the Standard role exists in the roles table. -/
theorem createStandardUser_fresh_email_account_without_role :
    UserDb.CreateStandardUser freshStore "u1" 0 10 aliceReq =
      (aliceStoreAfter, GoResult.ok aliceUser) ∧
    aliceUser.EmailVerified = false ∧
    aliceStoreAfter.user_roles = [] ∧
    (UserDb.AddUserRole aliceStoreAfter aliceUser STANDARD_ROLE).2 =
      GoResult.err "Standard role not available" :=
  ⟨by decide, by decide, by decide, by decide⟩

/-! ### Claim C5 -/

/-- Claim C5, counterexample: against freshStore the role grant fails, yet
CreateStandardUser returns a bare success carrying only the account — the grant
failure is not surfaced to the caller in any component of the result. -/
theorem createStandardUser_discards_grant_failure :
    (UserDb.AddUserRole aliceStoreAfter aliceUser STANDARD_ROLE).2 =
      GoResult.err "Standard role not available" ∧
    UserDb.CreateStandardUser freshStore "u1" 0 10 aliceReq =
      (aliceStoreAfter, GoResult.ok aliceUser) :=
  ⟨by decide, by decide⟩

/-- Claim C5 (amended): a failure of the Standard-role grant never makes a
registration that reached the grant step fail — but the failure is silently
discarded, not surfaced: every successful CreateStandardUser call returns a bare
account and leaves the role-association table exactly as it found it. -/
theorem successful_registration_grants_no_role (db : Store) (uuid : String)
    (salt now : Nat) (req : SignupReq) (u : AuthUser)
    (h : (UserDb.CreateStandardUser db uuid salt now req).2 = GoResult.ok u) :
    ((UserDb.CreateStandardUser db uuid salt now req).1).user_roles = db.user_roles := by
  rcases checkPassword_cases req.Password with hcp | ⟨e0, hcp⟩
  case inr => simp [UserDb.CreateStandardUser, hcp] at h
  cases hpa : ParseAddress req.Email with
  | error e => simp [UserDb.CreateStandardUser, hcp, hpa] at h
  | ok email =>
    cases hfe : (UserDb.FindUserByEmail db (some email)).1 with
    | panicked e => simp [UserDb.CreateStandardUser, hcp, hpa, hfe] at h
    | err e1 =>
      cases hhp : SignupReq.HashedPasswordOf salt req with
      | err e2 => simp [UserDb.CreateStandardUser, hcp, hpa, hfe, hhp] at h
      | panicked e2 => simp [UserDb.CreateStandardUser, hcp, hpa, hfe, hhp] at h
      | ok hash =>
        cases hfe2 : (UserDb.FindUserByEmail
            (UserDb.execCreateUser db now uuid req.FirstName req.LastName
              email.address email.address hash) (some email)).1 with
        | err e3 => simp [UserDb.CreateStandardUser, hcp, hpa, hfe, hhp, hfe2] at h
        | panicked e3 => simp [UserDb.CreateStandardUser, hcp, hpa, hfe, hhp, hfe2] at h
        | ok authUser =>
          simp only [UserDb.CreateStandardUser, hcp, hpa, hfe, hhp, hfe2,
            addUserRole_always_fails]
          simp [UserDb.execCreateUser]
    | ok authUser =>
      by_cases hv : authUser.EmailVerified
      · simp [UserDb.CreateStandardUser, hcp, hpa, hfe, hv] at h
      · cases hsp : UserDb.SetPassword db salt now authUser.Uuid req.Password with
        | mk db1 res =>
          cases res with
          | err e4 => simp [UserDb.CreateStandardUser, hcp, hpa, hfe, hv, hsp] at h
          | panicked e4 => simp [UserDb.CreateStandardUser, hcp, hpa, hfe, hv, hsp] at h
          | ok _ =>
            have hdb1 : db1.user_roles = db.user_roles := by
              rcases checkPassword_cases req.Password with hcp' | ⟨e5, hcp'⟩
              · cases hhp' : HashPassword salt req.Password with
                | err e6 => simp [UserDb.SetPassword, hcp', hhp'] at hsp
                | panicked e6 => simp [UserDb.SetPassword, hcp', hhp'] at hsp
                | ok hash' =>
                  simp only [UserDb.SetPassword, hcp', hhp', Prod.mk.injEq] at hsp
                  rw [← hsp.1]
                  simp [UserDb.execSetPassword]
              · simp [UserDb.SetPassword, hcp'] at hsp
            simp [UserDb.CreateStandardUser, hcp, hpa, hfe, hv, hsp,
              addUserRole_always_fails, hdb1]

/-- Witness for the amended claim C5 at the concrete fresh registration. -/
theorem successful_registration_grants_no_role_witness :
    ((UserDb.CreateStandardUser freshStore "u1" 0 10 aliceReq).1).user_roles =
      freshStore.user_roles :=
  successful_registration_grants_no_role freshStore "u1" 0 10 aliceReq aliceUser
    (by decide)

/-! ### Claim C6 -/

/-- Claim C6, counterexample: a signup request whose email matches bobStore's
verified account but whose password fails validation is rejected with the password
validation error, not with the already-registered error. -/
theorem verified_email_invalid_password_not_already_registered :
    UserDb.CreateStandardUser bobStore "u9" 0 20 shortPwdReq =
      (bobStore, GoResult.err "password must be at least 8 characters") ∧
    (UserDb.CreateStandardUser bobStore "u9" 0 20 shortPwdReq).2 ≠
      GoResult.err "user already registered:please sign up with another email address" :=
  ⟨by decide, by decide⟩

/-- Claim C6 (amended): for every signup request whose password passes validation and
whose email parses and matches an existing account with email_verified = true,
CreateStandardUser fails with the already-registered error and returns the store
unchanged — no password change, no role grant, no new row. -/
theorem createStandardUser_rejects_verified_email (db : Store) (uuid : String)
    (salt now : Nat) (req : SignupReq) (a : MailAddress) (row : UserRow)
    (hcp : CheckPassword req.Password = GoResult.ok ())
    (hpa : ParseAddress req.Email = Except.ok a)
    (hrow : findUserRowByEmail db a.address = some row)
    (hver : row.email_verified = true) :
    UserDb.CreateStandardUser db uuid salt now req =
      (db, GoResult.err "user already registered:please sign up with another email address") := by
  simp [UserDb.CreateStandardUser, UserDb.FindUserByEmail, hcp, hpa, hrow,
    NewAuthUser, hver]

/-- Witness for the amended claim C6 at the concrete verified account of bobStore. -/
theorem createStandardUser_rejects_verified_email_witness :
    UserDb.CreateStandardUser bobStore "u9" 0 20 bobReq =
      (bobStore, GoResult.err "user already registered:please sign up with another email address") :=
  createStandardUser_rejects_verified_email bobStore "u9" 0 20 bobReq
    { name := "", address := "bob@example.com" } bobRow
    (by decide) (by rfl) (by rfl) (by decide)

/-! ### Claim C2 -/

/-- A uuid-keyed find? over the password-update map rewrites the found row. -/
lemma find?_uuid_map_update (uuid : String) (hash : BcryptHash) (now : Nat) :
    ∀ (l : List UserRow) (r : UserRow),
      l.find? (fun x => x.uuid == uuid) = some r →
      (l.map (fun x => if x.uuid == uuid then { x with password := hash, updated_on := now }
          else x)).find? (fun x => x.uuid == uuid) =
        some { r with password := hash, updated_on := now } := by
  intro l
  induction l with
  | nil => intro r h; simp at h
  | cons a t ih =>
    intro r h
    cases ha : (a.uuid == uuid) with
    | true =>
      simp only [List.find?_cons, ha] at h
      cases h
      simp only [List.map_cons, if_pos ha]
      simp [List.find?_cons, ha]
    | false =>
      simp only [List.find?_cons, ha] at h
      simp only [List.map_cons]
      rw [if_neg (by simp [ha])]
      rw [List.find?_cons]
      simpa [ha] using ih r h

/-- Claim C2 (updated_on trigger modelled from the spec): a successful SetPassword
advances the account's last-updated timestamp to the current clock, so an OTP
derived from the account state read before the call fails CheckOtpValid against the
account state read back after the call. -/
theorem setPassword_invalidates_prior_otp (db db' : Store) (salt saltOtp now : Nat)
    (uuid password : String) (u u' : AuthUser) (otp : BcryptHash)
    (hu : (UserDb.FindUserByUuid db uuid).1 = GoResult.ok u)
    (hotp : CreateOtp saltOtp u = GoResult.ok otp)
    (hset : UserDb.SetPassword db salt now uuid password = (db', GoResult.ok ()))
    (hadv : u.Updated < now)
    (hu' : (UserDb.FindUserByUuid db' uuid).1 = GoResult.ok u') :
    CheckOtpValid u' otp = GoResult.err "one time code has expired" := by
  cases hrow : findUserRowByUuid db uuid with
  | none => simp [UserDb.FindUserByUuid, hrow] at hu
  | some r =>
    simp only [UserDb.FindUserByUuid, hrow] at hu
    cases hu
    rcases checkPassword_cases password with hcp | ⟨e0, hcp⟩
    · cases hph : HashPassword salt password with
      | err e1 => simp [UserDb.SetPassword, hcp, hph] at hset
      | panicked e1 => simp [UserDb.SetPassword, hcp, hph] at hset
      | ok hash =>
        simp only [UserDb.SetPassword, hcp, hph, Prod.mk.injEq] at hset
        have hrow2 : db.users.find? (fun x => x.uuid == uuid) = some r := hrow
        have hrow' : findUserRowByUuid db' uuid =
            some { r with password := hash, updated_on := now } := by
          rw [← hset.1]
          unfold findUserRowByUuid UserDb.execSetPassword
          exact find?_uuid_map_update uuid hash now db.users r hrow2
        simp only [UserDb.FindUserByUuid, hrow'] at hu'
        cases hu'
        have hkey : otp.key = FormatUint r.updated_on := by
          by_cases hlen : (FormatUint (NewAuthUser uuid r.first_name r.last_name
              r.username r.email r.password r.email_verified r.can_sign_in
              r.updated_on).Updated).utf8ByteSize > 72
          · simp [CreateOtp, HashPassword, bcryptGenerateFromPassword, hlen] at hotp
          · simp only [CreateOtp, HashPassword, bcryptGenerateFromPassword,
              if_pos, if_neg hlen, GoResult.ok.injEq] at hotp
            rw [← hotp]
            simp [NewAuthUser]
        have hne : FormatUint r.updated_on ≠ FormatUint now := by
          intro hf
          have := FormatUint_injective hf
          simp only [NewAuthUser] at hadv
          omega
        simp [CheckOtpValid, CheckPasswordsMatch, bcryptCompareHashAndPassword,
          NewAuthUser, hkey, hne]
    · simp [UserDb.SetPassword, hcp] at hset

/-- The account FindUserByUuid reads from bobStore. -/
def bobUser : AuthUser :=
  { Uuid := "u2", FirstName := "Bob", LastName := "Jones", Username := "bobby",
    Email := "bob@example.com",
    HashedPassword := { cost := bcryptDefaultCost, salt := 1, key := "password2" },
    EmailVerified := true, CanSignIn := true, Updated := 5 }

/-- bobStore's row after SetPassword at clock 6 with salt 0 and "password3". -/
def bobRowAfterPwd : UserRow :=
  { uuid := "u2", first_name := "Bob", last_name := "Jones", username := "bobby",
    email := "bob@example.com",
    password := { cost := bcryptDefaultCost, salt := 0, key := "password3" },
    email_verified := true, can_sign_in := true, updated_on := 6 }

/-- bobStore after the password update. -/
def bobStoreAfterPwd : Store :=
  { users := [bobRowAfterPwd], roles := [], user_roles := [] }

/-- The account read back after the password update. -/
def bobUserAfterPwd : AuthUser :=
  { Uuid := "u2", FirstName := "Bob", LastName := "Jones", Username := "bobby",
    Email := "bob@example.com",
    HashedPassword := { cost := bcryptDefaultCost, salt := 0, key := "password3" },
    EmailVerified := true, CanSignIn := true, Updated := 6 }

/-- The OTP derived from bobUser before the password change (timestamp 5). -/
def bobOtp : BcryptHash := { cost := bcryptDefaultCost, salt := 7, key := "5" }

/-- Witness for claim C2 at the concrete account of bobStore. -/
theorem setPassword_invalidates_prior_otp_witness :
    CheckOtpValid bobUserAfterPwd bobOtp = GoResult.err "one time code has expired" :=
  setPassword_invalidates_prior_otp bobStore bobStoreAfterPwd 0 7 6 "u2" "password3"
    bobUser bobUserAfterPwd bobOtp (by decide) (by decide) (by decide) (by decide)
    (by decide)

/-! ### Claim C3 -/

/-- Claim C3: FindUserById resolves identifiers exactly as the spec's ordered
strategy list — username lookup, then email lookup when the token parses as a mail
address, then uuid lookup, returning the first strategy's account — and it returns a
failure only when every strategy has failed. -/
theorem findUserById_follows_strategy_order (db : Store) (id : String) :
    (UserDb.FindUserById db id).1.toOption = ResolveIdentifierSpec db id ∧
    (∀ e, (UserDb.FindUserById db id).1 = GoResult.err e →
      usernameStrategySpec db id = none ∧
      (∀ a, ParseAddress id = Except.ok a → emailStrategySpec db a = none) ∧
      uuidStrategySpec db id = none) := by
  rcases checkUsername_cases id with hcu | ⟨e0, hcu⟩
  · cases hrowU : findUserRowByUsername db id with
    | some r =>
      simp [UserDb.FindUserById, UserDb.FindUserByUsername, ResolveIdentifierSpec,
        usernameStrategySpec, GoResult.toOption, hcu, hrowU]
    | none =>
      cases hpa : ParseAddress id with
      | ok a =>
        cases hrowE : findUserRowByEmail db a.address with
        | some r =>
          simp [UserDb.FindUserById, UserDb.FindUserByUsername, UserDb.FindUserByEmail,
            ResolveIdentifierSpec, usernameStrategySpec, emailStrategySpec,
            GoResult.toOption, hcu, hrowU, hpa, hrowE]
        | none =>
          cases hrowI : findUserRowByUuid db id with
          | some r =>
            simp [UserDb.FindUserById, UserDb.FindUserByUsername, UserDb.FindUserByEmail,
              UserDb.FindUserByUuid, ResolveIdentifierSpec, usernameStrategySpec,
              emailStrategySpec, uuidStrategySpec, GoResult.toOption, hcu, hrowU, hpa,
              hrowE, hrowI]
          | none =>
            simp [UserDb.FindUserById, UserDb.FindUserByUsername, UserDb.FindUserByEmail,
              UserDb.FindUserByUuid, ResolveIdentifierSpec, usernameStrategySpec,
              emailStrategySpec, uuidStrategySpec, GoResult.toOption, hcu, hrowU, hpa,
              hrowE, hrowI]
      | error e1 =>
        cases hrowI : findUserRowByUuid db id with
        | some r =>
          simp [UserDb.FindUserById, UserDb.FindUserByUsername, UserDb.FindUserByUuid,
            ResolveIdentifierSpec, usernameStrategySpec, uuidStrategySpec,
            GoResult.toOption, hcu, hrowU, hpa, hrowI]
        | none =>
          simp [UserDb.FindUserById, UserDb.FindUserByUsername, UserDb.FindUserByUuid,
            ResolveIdentifierSpec, usernameStrategySpec, uuidStrategySpec,
            GoResult.toOption, hcu, hrowU, hpa, hrowI]
  · cases hpa : ParseAddress id with
    | ok a =>
      cases hrowE : findUserRowByEmail db a.address with
      | some r =>
        simp [UserDb.FindUserById, UserDb.FindUserByUsername, UserDb.FindUserByEmail,
          ResolveIdentifierSpec, usernameStrategySpec, emailStrategySpec,
          GoResult.toOption, hcu, hpa, hrowE]
      | none =>
        cases hrowI : findUserRowByUuid db id with
        | some r =>
          simp [UserDb.FindUserById, UserDb.FindUserByUsername, UserDb.FindUserByEmail,
            UserDb.FindUserByUuid, ResolveIdentifierSpec, usernameStrategySpec,
            emailStrategySpec, uuidStrategySpec, GoResult.toOption, hcu, hpa, hrowE,
            hrowI]
        | none =>
          simp [UserDb.FindUserById, UserDb.FindUserByUsername, UserDb.FindUserByEmail,
            UserDb.FindUserByUuid, ResolveIdentifierSpec, usernameStrategySpec,
            emailStrategySpec, uuidStrategySpec, GoResult.toOption, hcu, hpa, hrowE,
            hrowI]
    | error e1 =>
      cases hrowI : findUserRowByUuid db id with
      | some r =>
        simp [UserDb.FindUserById, UserDb.FindUserByUsername, UserDb.FindUserByUuid,
          ResolveIdentifierSpec, usernameStrategySpec, uuidStrategySpec,
          GoResult.toOption, hcu, hpa, hrowI]
      | none =>
        simp [UserDb.FindUserById, UserDb.FindUserByUsername, UserDb.FindUserByUuid,
          ResolveIdentifierSpec, usernameStrategySpec, uuidStrategySpec,
          GoResult.toOption, hcu, hpa, hrowI]

/-- Witness for claim C3 at a failing token: all three strategies miss. -/
theorem findUserById_follows_strategy_order_witness :
    (UserDb.FindUserById bobStore "missing").1.toOption =
      ResolveIdentifierSpec bobStore "missing" ∧
    usernameStrategySpec bobStore "missing" = none ∧
    (∀ a, ParseAddress "missing" = Except.ok a →
      emailStrategySpec bobStore a = none) ∧
    uuidStrategySpec bobStore "missing" = none := by
  have h := findUserById_follows_strategy_order bobStore "missing"
  exact ⟨h.1, h.2 "sql: no rows in result set" (by decide)⟩

/-! ### Claim C4 -/

/-- Claim C4, counterexample: FindUserByUsername applied to an email-shaped token
that is no account's username performs an email-key lookup after the missed
username-key lookup, refuting "queries only the username key, never the email key";
and on an unknown email-shaped token FindUserById attempts the email lookup twice,
refuting "each lookup strategy is attempted at most once". -/
theorem findUserByUsername_queries_email_key :
    (UserDb.FindUserByUsername bobStore "bob@example.com").2 =
      [Query.byUsername "bob@example.com", Query.byEmail "bob@example.com"] ∧
    ((UserDb.FindUserByUsername bobStore "bob@example.com").2.countP
      Query.isByEmail) = 1 ∧
    ((UserDb.FindUserById bobStore "carol@example.com").2.countP
      Query.isByEmail) = 2 :=
  ⟨by decide, by decide, by decide⟩

/-- Claim C4 (amended): FindUserByUsername validates username syntax before querying
and fails fast without touching the store on malformed input; when its single
username-key query misses and the input parses as a mail address it performs one
additional email-key lookup (so the email key can be queried by the username
strategy, and during FindUserById the email strategy can run twice);
FindUserByEmail and FindUserByUuid each perform exactly one lookup by their own key,
and during FindUserById the username and uuid lookups each run at most once and the
email lookup at most twice. -/
theorem find_lookup_attempt_bounds (db : Store) (id : String) (a : MailAddress) :
    (∀ e, CheckUsername id = GoResult.err e →
      (UserDb.FindUserByUsername db id).2 = []) ∧
    ((UserDb.FindUserByUsername db id).2 = [] ∨
     (UserDb.FindUserByUsername db id).2 = [Query.byUsername id] ∨
     ∃ a2, ParseAddress id = Except.ok a2 ∧
       (UserDb.FindUserByUsername db id).2 =
         [Query.byUsername id, Query.byEmail a2.address]) ∧
    (UserDb.FindUserByEmail db (some a)).2 = [Query.byEmail a.address] ∧
    (UserDb.FindUserByUuid db id).2 = [Query.byUuid id] ∧
    (UserDb.FindUserById db id).2.countP Query.isByUsername ≤ 1 ∧
    (UserDb.FindUserById db id).2.countP Query.isByUuid ≤ 1 ∧
    (UserDb.FindUserById db id).2.countP Query.isByEmail ≤ 2 := by
  have hemail : (UserDb.FindUserByEmail db (some a)).2 = [Query.byEmail a.address] := by
    cases h2 : findUserRowByEmail db a.address <;>
      simp [UserDb.FindUserByEmail, h2]
  have huuid : (UserDb.FindUserByUuid db id).2 = [Query.byUuid id] := by
    cases h2 : findUserRowByUuid db id <;>
      simp [UserDb.FindUserByUuid, h2]
  rcases checkUsername_cases id with hcu | ⟨e0, hcu⟩
  · refine ⟨fun e he => ?_, ?_⟩
    · rw [hcu] at he; cases he
    cases hrowU : findUserRowByUsername db id with
    | some r =>
      refine ⟨Or.inr (Or.inl ?_), hemail, huuid, ?_, ?_, ?_⟩ <;>
        simp [UserDb.FindUserById, UserDb.FindUserByUsername, Query.isByEmail,
          Query.isByUsername, Query.isByUuid, hcu, hrowU, List.countP_cons]
    | none =>
      cases hpa : ParseAddress id with
      | ok a2 =>
        cases hrowE : findUserRowByEmail db a2.address with
        | some r =>
          refine ⟨Or.inr (Or.inr ⟨a2, rfl, ?_⟩), hemail, huuid, ?_, ?_, ?_⟩ <;>
            simp [UserDb.FindUserById, UserDb.FindUserByUsername,
              UserDb.FindUserByEmail, Query.isByEmail, Query.isByUsername,
              Query.isByUuid, hcu, hrowU, hpa, hrowE, List.countP_cons]
        | none =>
          refine ⟨Or.inr (Or.inr ⟨a2, rfl, ?_⟩), hemail, huuid, ?_, ?_, ?_⟩ <;>
            cases hrowI : findUserRowByUuid db id <;>
            simp [UserDb.FindUserById, UserDb.FindUserByUsername,
              UserDb.FindUserByEmail, UserDb.FindUserByUuid, Query.isByEmail,
              Query.isByUsername, Query.isByUuid, hcu, hrowU, hpa, hrowE, hrowI,
              List.countP_cons]
      | error e1 =>
        refine ⟨Or.inr (Or.inl ?_), hemail, huuid, ?_, ?_, ?_⟩ <;>
          cases hrowI : findUserRowByUuid db id <;>
          simp [UserDb.FindUserById, UserDb.FindUserByUsername, UserDb.FindUserByUuid,
            Query.isByEmail, Query.isByUsername, Query.isByUuid, hcu, hrowU, hpa,
            hrowI, List.countP_cons]
  · refine ⟨fun e he => by simp [UserDb.FindUserByUsername, hcu], Or.inl (by
      simp [UserDb.FindUserByUsername, hcu]), hemail, huuid, ?_, ?_, ?_⟩ <;>
    cases hpa : ParseAddress id with
    | ok a2 =>
      cases hrowE : findUserRowByEmail db a2.address <;>
      cases hrowI : findUserRowByUuid db id <;>
      simp [UserDb.FindUserById, UserDb.FindUserByUsername, UserDb.FindUserByEmail,
        UserDb.FindUserByUuid, Query.isByEmail, Query.isByUsername, Query.isByUuid,
        hcu, hpa, hrowE, hrowI, List.countP_cons]
    | error e1 =>
      cases hrowI : findUserRowByUuid db id <;>
      simp [UserDb.FindUserById, UserDb.FindUserByUsername, UserDb.FindUserByUuid,
        Query.isByEmail, Query.isByUsername, Query.isByUuid, hcu, hpa, hrowI,
        List.countP_cons]

/-- Witness for the amended claim C4 at a concrete email-shaped token. -/
theorem find_lookup_attempt_bounds_witness :
    (UserDb.FindUserById bobStore "carol@example.com").2.countP Query.isByEmail ≤ 2 :=
  (find_lookup_attempt_bounds bobStore "carol@example.com"
    { name := "", address := "carol@example.com" }).2.2.2.2.2.2

/-! ### Claim C8: helper lemmas -/

lemma lexLeChars_refl : ∀ l : List Char, lexLeChars l l = true := by
  intro l
  induction l with
  | nil => rfl
  | cons a t ih =>
    unfold lexLeChars
    rw [if_neg (by omega), if_neg (by omega)]
    exact ih

lemma strLe_refl (s : String) : strLe s s = true := lexLeChars_refl s.toList

lemma rowLe_name_le {a b : RolePermRow} (h : rowLe a b = true) :
    strLe a.role_name b.role_name = true := by
  unfold rowLe at h
  by_cases hn : (a.role_name == b.role_name) = true
  · have : a.role_name = b.role_name := by simpa using hn
    rw [this]
    exact strLe_refl _
  · rwa [if_neg hn] at h

lemma rowLe_perm_le {a b : RolePermRow} (h : rowLe a b = true)
    (hn : a.role_name = b.role_name) :
    strLe a.permission_name b.permission_name = true := by
  unfold rowLe at h
  rwa [if_pos (by simp [hn])] at h

lemma chainLe_cons_cons {α : Type} (le : α → α → Bool) (a b : α) (t : List α) :
    chainLe le (a :: b :: t) = (le a b && chainLe le (b :: t)) := rfl

/-- Splitting a chain across an append: both halves are chains and the junction
satisfies the order. -/
lemma chainLe_append {α : Type} (le : α → α → Bool) :
    ∀ (xs ys : List α), chainLe le (xs ++ ys) = true →
      chainLe le xs = true ∧ chainLe le ys = true ∧
      (∀ x y, xs.getLast? = some x → ys.head? = some y → le x y = true) := by
  intro xs
  induction xs with
  | nil =>
    intro ys h
    exact ⟨rfl, h, fun x y hx => by simp at hx⟩
  | cons a t ih =>
    intro ys h
    cases t with
    | nil =>
      cases ys with
      | nil => exact ⟨rfl, rfl, fun x y hx hy => by simp at hy⟩
      | cons b ys2 =>
        rw [List.singleton_append, chainLe_cons_cons] at h
        have h2 := Bool.and_elim_left h
        have h3 := Bool.and_elim_right h
        refine ⟨rfl, h3, fun x y hx hy => ?_⟩
        simp at hx hy
        subst hx
        subst hy
        exact h2
    | cons b t2 =>
      rw [List.cons_append, List.cons_append, chainLe_cons_cons] at h
      have h2 := Bool.and_elim_left h
      have h3 := Bool.and_elim_right h
      rw [← List.cons_append] at h3
      obtain ⟨hc1, hc2, hc3⟩ := ih ys h3
      refine ⟨?_, hc2, ?_⟩
      · rw [chainLe_cons_cons, h2, hc1]; rfl
      · intro x y hx hy
        rw [List.getLast?_cons_cons] at hx
        exact hc3 x y hx hy

/-- The head of a dropWhile survivor fails the predicate. -/
lemma head?_dropWhile_false {α : Type} (p : α → Bool) :
    ∀ (l : List α) (r : α), (l.dropWhile p).head? = some r → p r = false := by
  intro l
  induction l with
  | nil => intro r h; simp at h
  | cons a t ih =>
    intro r h
    by_cases hp : p a = true
    · rw [List.dropWhile_cons_of_pos hp] at h
      exact ih r h
    · rw [List.dropWhile_cons_of_neg hp] at h
      simp at h
      rw [← h]
      simpa using hp

lemma modifyLast_append (f : PublicRole → PublicRole) :
    ∀ (xs : List PublicRole) (x : PublicRole),
      modifyLast f (xs ++ [x]) = xs ++ [f x] := by
  intro xs
  induction xs with
  | nil => intro x; rfl
  | cons a t ih =>
    intro x
    cases t with
    | nil => rfl
    | cons b t2 =>
      show a :: modifyLast f ((b :: t2) ++ [x]) = a :: ((b :: t2) ++ [f x])
      rw [ih x]

/-- One loop step on a row of the current group appends its permission to the last
group. -/
lemma publicRolesLoop_cons_same (row : RolePermRow) (rest : List RolePermRow)
    (cur : String) (ret : List PublicRole) (g : PublicRole)
    (hx : (row.role_uuid == cur) = true) :
    UserDb.publicRolesLoop (row :: rest) cur (ret ++ [g]) =
      UserDb.publicRolesLoop rest cur
        (ret ++ [{ g with Permissions := g.Permissions ++ [row.permission_name] }]) := by
  rw [UserDb.publicRolesLoop]
  simp only [hx, if_true, Prod.fst, Prod.snd]
  split
  next heq => exact absurd heq (by simp)
  next y ys heq =>
    rw [modifyLast_append]

/-- One loop step on a row of a new role opens a group holding its permission. -/
lemma publicRolesLoop_cons_new (row : RolePermRow) (rest : List RolePermRow)
    (cur : String) (ret : List PublicRole)
    (hx : (row.role_uuid == cur) = false) :
    UserDb.publicRolesLoop (row :: rest) cur ret =
      UserDb.publicRolesLoop rest row.role_uuid
        (ret ++ [{ Name := row.role_name, Permissions := [row.permission_name] }]) := by
  rw [UserDb.publicRolesLoop]
  simp only [hx, Bool.false_eq_true, if_false, Prod.fst, Prod.snd]
  split
  next heq => exact absurd heq (by simp)
  next y ys heq =>
    rw [modifyLast_append]
    rfl

/-- Consuming a whole run of rows of the current role appends their permissions, in
order, to the last group. -/
lemma publicRolesLoop_run (cur : String) :
    ∀ (run rest : List RolePermRow) (ret : List PublicRole) (g : PublicRole),
      (∀ x ∈ run, (x.role_uuid == cur) = true) →
      UserDb.publicRolesLoop (run ++ rest) cur (ret ++ [g]) =
        UserDb.publicRolesLoop rest cur
          (ret ++ [{ g with
            Permissions := g.Permissions ++ run.map (fun r => r.permission_name) }]) := by
  intro run
  induction run with
  | nil =>
    intro rest ret g h
    simp
  | cons x xs ih =>
    intro rest ret g h
    rw [List.cons_append,
      publicRolesLoop_cons_same x (xs ++ rest) cur ret g (h x (by simp)),
      ih rest ret _ (fun z hz => h z (by simp [hz]))]
    simp

/-- The loop, started on rows whose head opens a new group, returns the accumulated
groups followed by one group per maximal run of equal role uuid. -/
lemma publicRolesLoop_spec :
    ∀ (n : Nat) (rows : List RolePermRow) (cur : String) (ret : List PublicRole),
      rows.length ≤ n →
      (∀ r, rows.head? = some r → (r.role_uuid == cur) = false) →
      UserDb.publicRolesLoop rows cur ret = GoResult.ok (ret ++ expectedGroups rows) := by
  intro n
  induction n with
  | zero =>
    intro rows cur ret hlen hhead
    have h0 : rows = [] := List.length_eq_zero.mp (Nat.le_zero.mp hlen)
    subst h0
    simp [UserDb.publicRolesLoop, expectedGroups, uuidRuns]
  | succ m ih =>
    intro rows cur ret hlen hhead
    cases rows with
    | nil => simp [UserDb.publicRolesLoop, expectedGroups, uuidRuns]
    | cons r rest =>
      have hr : (r.role_uuid == cur) = false := hhead r rfl
      rw [publicRolesLoop_cons_new r rest cur ret hr]
      have hsplit : rest = rest.takeWhile (fun x => x.role_uuid == r.role_uuid) ++
          rest.dropWhile (fun x => x.role_uuid == r.role_uuid) :=
        (List.takeWhile_append_dropWhile _ _).symm
      conv_lhs => rw [hsplit]
      rw [publicRolesLoop_run r.role_uuid
        (rest.takeWhile (fun x => x.role_uuid == r.role_uuid))
        (rest.dropWhile (fun x => x.role_uuid == r.role_uuid)) ret
        { Name := r.role_name, Permissions := [r.permission_name] }
        (fun z hz => by simpa using List.mem_takeWhile_imp hz)]
      have hlen2 : (rest.dropWhile (fun x => x.role_uuid == r.role_uuid)).length ≤ m := by
        have h1 := (List.dropWhile_suffix
          (fun x => x.role_uuid == r.role_uuid) (l := rest)).length_le
        simp only [List.length_cons] at hlen
        omega
      rw [ih (rest.dropWhile (fun x => x.role_uuid == r.role_uuid)) r.role_uuid _ hlen2
        (fun z hz => head?_dropWhile_false _ rest z hz)]
      have hruns : uuidRuns (r :: rest) =
          (r :: rest.takeWhile (fun x => x.role_uuid == r.role_uuid)) ::
            uuidRuns (rest.dropWhile (fun x => x.role_uuid == r.role_uuid)) := by
        rw [uuidRuns.eq_def]
      simp [expectedGroups, hruns]

/-- When equal role uuids carry equal role names, every row of a maximal run shares
the head row's role name. -/
lemma run_names_eq (r : RolePermRow) (rest : List RolePermRow)
    (hjoin : ∀ a ∈ r :: rest, ∀ b ∈ r :: rest,
      a.role_uuid = b.role_uuid → a.role_name = b.role_name) :
    ∀ x ∈ r :: rest.takeWhile (fun z => z.role_uuid == r.role_uuid),
      x.role_name = r.role_name := by
  intro x hx
  rcases List.mem_cons.mp hx with hx1 | hx2
  · rw [hx1]
  · have huuid : x.role_uuid = r.role_uuid := by
      simpa using List.mem_takeWhile_imp hx2
    have hmem : x ∈ r :: rest :=
      List.mem_cons_of_mem r
        ((List.takeWhile_sublist (fun z => z.role_uuid == r.role_uuid)).subset hx2)
    exact hjoin x hmem r (by simp) huuid

/-- A chain of rows with one shared role name maps to a chain of permission names. -/
lemma chainLe_map_perm :
    ∀ (run : List RolePermRow),
      chainLe rowLe run = true →
      (∀ a ∈ run, ∀ b ∈ run, a.role_name = b.role_name) →
      chainLe strLe (run.map (fun x => x.permission_name)) = true := by
  intro run
  induction run with
  | nil => intro _ _; rfl
  | cons a t ih =>
    intro hc hn
    cases t with
    | nil => rfl
    | cons b t2 =>
      rw [List.map_cons, List.map_cons, chainLe_cons_cons]
      rw [chainLe_cons_cons] at hc
      have h1 := Bool.and_elim_left hc
      have h2 := Bool.and_elim_right hc
      have hperm := rowLe_perm_le h1 (hn a (by simp) b (by simp))
      have htail := ih h2 (fun x hx y hy => hn x (by simp [hx]) y (by simp [hy]))
      rw [List.map_cons] at htail
      simp [hperm, htail]

lemma uuidRuns_nil : uuidRuns [] = [] := by
  rw [uuidRuns.eq_def]

/-- The group names the spec's grouping produces are ordered when the rows are. -/
lemma expectedGroups_names_chain :
    ∀ (n : Nat) (rows : List RolePermRow), rows.length ≤ n →
      chainLe rowLe rows = true →
      (∀ a ∈ rows, ∀ b ∈ rows, a.role_uuid = b.role_uuid → a.role_name = b.role_name) →
      chainLe strLe ((expectedGroups rows).map (fun g => g.Name)) = true := by
  intro n
  induction n with
  | zero =>
    intro rows hlen _ _
    have h0 : rows = [] := List.length_eq_zero.mp (Nat.le_zero.mp hlen)
    subst h0
    simp [expectedGroups, uuidRuns_nil, chainLe]
  | succ m ih =>
    intro rows hlen hsorted hjoin
    cases rows with
    | nil => simp [expectedGroups, uuidRuns_nil, chainLe]
    | cons r rest =>
      have hruns : uuidRuns (r :: rest) =
          (r :: rest.takeWhile (fun x => x.role_uuid == r.role_uuid)) ::
            uuidRuns (rest.dropWhile (fun x => x.role_uuid == r.role_uuid)) := by
        rw [uuidRuns.eq_def]
      have hsplit : r :: rest =
          (r :: rest.takeWhile (fun x => x.role_uuid == r.role_uuid)) ++
            rest.dropWhile (fun x => x.role_uuid == r.role_uuid) := by
        rw [List.cons_append, List.takeWhile_append_dropWhile]
      rw [hsplit] at hsorted
      obtain ⟨hcrun, hcdw, hjunction⟩ := chainLe_append rowLe _ _ hsorted
      have hlen2 : (rest.dropWhile (fun x => x.role_uuid == r.role_uuid)).length ≤ m := by
        have h1 := (List.dropWhile_suffix
          (fun x => x.role_uuid == r.role_uuid) (l := rest)).length_le
        simp only [List.length_cons] at hlen
        omega
      have hjoin2 : ∀ a ∈ rest.dropWhile (fun x => x.role_uuid == r.role_uuid),
          ∀ b ∈ rest.dropWhile (fun x => x.role_uuid == r.role_uuid),
          a.role_uuid = b.role_uuid → a.role_name = b.role_name := by
        intro a ha b hb
        exact hjoin a (List.mem_cons_of_mem r
            ((List.dropWhile_sublist (fun x => x.role_uuid == r.role_uuid)).subset ha))
          b (List.mem_cons_of_mem r
            ((List.dropWhile_sublist (fun x => x.role_uuid == r.role_uuid)).subset hb))
      have htail := ih (rest.dropWhile (fun x => x.role_uuid == r.role_uuid)) hlen2
        hcdw hjoin2
      cases hdw : rest.dropWhile (fun x => x.role_uuid == r.role_uuid) with
      | nil =>
        simp only [expectedGroups, hruns, hdw, uuidRuns_nil, List.map_cons,
          List.map_nil]
        rfl
      | cons r2 rest2 =>
        have hruns2 : uuidRuns (r2 :: rest2) =
            (r2 :: rest2.takeWhile (fun x => x.role_uuid == r2.role_uuid)) ::
              uuidRuns (rest2.dropWhile (fun x => x.role_uuid == r2.role_uuid)) := by
          rw [uuidRuns.eq_def]
        have hlast : ∃ x, (r :: rest.takeWhile
            (fun z => z.role_uuid == r.role_uuid)).getLast? = some x ∧
            x.role_name = r.role_name := by
          refine ⟨(r :: rest.takeWhile (fun z => z.role_uuid == r.role_uuid)).getLast
            (by simp), List.getLast?_eq_getLast _ (by simp), ?_⟩
          exact run_names_eq r rest hjoin _ (List.getLast_mem (by simp))
        obtain ⟨x, hx1, hx2⟩ := hlast
        rw [hdw] at hjunction htail
        have hj : rowLe x r2 = true := hjunction x r2 hx1 rfl
        have hname : strLe r.role_name r2.role_name = true := by
          rw [← hx2]
          exact rowLe_name_le hj
        rw [hdw] at hruns
        simp only [expectedGroups, hruns, hruns2, List.map_cons, List.headD_cons] at htail ⊢
        rw [chainLe_cons_cons, hname]
        simpa using htail

/-- Each group's permission list is ordered when the rows are ordered and equal role
uuids carry equal role names. -/
lemma expectedGroups_perms_chain :
    ∀ (n : Nat) (rows : List RolePermRow), rows.length ≤ n →
      chainLe rowLe rows = true →
      (∀ a ∈ rows, ∀ b ∈ rows, a.role_uuid = b.role_uuid → a.role_name = b.role_name) →
      ∀ g ∈ expectedGroups rows, chainLe strLe g.Permissions = true := by
  intro n
  induction n with
  | zero =>
    intro rows hlen _ _ g hg
    have h0 : rows = [] := List.length_eq_zero.mp (Nat.le_zero.mp hlen)
    subst h0
    simp [expectedGroups, uuidRuns_nil] at hg
  | succ m ih =>
    intro rows hlen hsorted hjoin g hg
    cases rows with
    | nil => simp [expectedGroups, uuidRuns_nil] at hg
    | cons r rest =>
      have hruns : uuidRuns (r :: rest) =
          (r :: rest.takeWhile (fun x => x.role_uuid == r.role_uuid)) ::
            uuidRuns (rest.dropWhile (fun x => x.role_uuid == r.role_uuid)) := by
        rw [uuidRuns.eq_def]
      have hsplit : r :: rest =
          (r :: rest.takeWhile (fun x => x.role_uuid == r.role_uuid)) ++
            rest.dropWhile (fun x => x.role_uuid == r.role_uuid) := by
        rw [List.cons_append, List.takeWhile_append_dropWhile]
      rw [hsplit] at hsorted
      obtain ⟨hcrun, hcdw, _⟩ := chainLe_append rowLe _ _ hsorted
      have hlen2 : (rest.dropWhile (fun x => x.role_uuid == r.role_uuid)).length ≤ m := by
        have h1 := (List.dropWhile_suffix
          (fun x => x.role_uuid == r.role_uuid) (l := rest)).length_le
        simp only [List.length_cons] at hlen
        omega
      have hjoin2 : ∀ a ∈ rest.dropWhile (fun x => x.role_uuid == r.role_uuid),
          ∀ b ∈ rest.dropWhile (fun x => x.role_uuid == r.role_uuid),
          a.role_uuid = b.role_uuid → a.role_name = b.role_name := by
        intro a ha b hb
        exact hjoin a (List.mem_cons_of_mem r
            ((List.dropWhile_sublist (fun x => x.role_uuid == r.role_uuid)).subset ha))
          b (List.mem_cons_of_mem r
            ((List.dropWhile_sublist (fun x => x.role_uuid == r.role_uuid)).subset hb))
      simp only [expectedGroups, hruns, List.map_cons, List.headD_cons] at hg
      rcases List.mem_cons.mp hg with hg1 | hg2
      · rw [hg1]
        apply chainLe_map_perm _ hcrun
        intro a ha b hb
        rw [run_names_eq r rest hjoin a ha, run_names_eq r rest hjoin b hb]
      · exact ih (rest.dropWhile (fun x => x.role_uuid == r.role_uuid)) hlen2 hcdw
          hjoin2 g (by simpa [expectedGroups] using hg2)

/-! ### Claim C8 -/

/-- Claim C8: for every row sequence the role-permission query can return — rows
ordered by role name then permission name, the join assigning one role name per role
uuid, role ids nonempty — PublicUserRolePermissions produces exactly one PublicRole
per maximal run of equal role uuid, with groups in role-name order and each group
holding exactly that run's permission names in permission-name order. -/
theorem publicUserRolePermissions_grouping (rows : List RolePermRow)
    (hsorted : chainLe rowLe rows = true)
    (hjoin : ∀ a ∈ rows, ∀ b ∈ rows, a.role_uuid = b.role_uuid →
      a.role_name = b.role_name)
    (hids : ∀ r ∈ rows, r.role_uuid ≠ "") :
    UserDb.PublicUserRolePermissions rows = GoResult.ok (expectedGroups rows) ∧
    chainLe strLe ((expectedGroups rows).map (fun g => g.Name)) = true ∧
    ∀ g ∈ expectedGroups rows, chainLe strLe g.Permissions = true := by
  refine ⟨?_, expectedGroups_names_chain rows.length rows le_rfl hsorted hjoin,
    expectedGroups_perms_chain rows.length rows le_rfl hsorted hjoin⟩
  have hloop := publicRolesLoop_spec rows.length rows "" [] le_rfl ?_
  · simpa [UserDb.PublicUserRolePermissions] using hloop
  · intro r hr
    have hmem : r ∈ rows := by
      cases rows with
      | nil => simp at hr
      | cons a t =>
        simp only [List.head?_cons, Option.some.injEq] at hr
        rw [← hr]
        simp
    simpa using hids r hmem

/-- The 2-roles-by-3-permissions fixture of the spec's test for the grouping. -/
def fixtureRows : List RolePermRow :=
  [{ role_uuid := "ra", role_name := "admin", permission_uuid := "p1",
     permission_name := "create" },
   { role_uuid := "ra", role_name := "admin", permission_uuid := "p2",
     permission_name := "delete" },
   { role_uuid := "ra", role_name := "admin", permission_uuid := "p3",
     permission_name := "update" },
   { role_uuid := "rb", role_name := "viewer", permission_uuid := "p4",
     permission_name := "read" },
   { role_uuid := "rb", role_name := "viewer", permission_uuid := "p5",
     permission_name := "stats" },
   { role_uuid := "rb", role_name := "viewer", permission_uuid := "p6",
     permission_name := "view" }]

/-- Witness for claim C8 at the 2x3 fixture. -/
theorem publicUserRolePermissions_grouping_witness :
    UserDb.PublicUserRolePermissions fixtureRows =
      GoResult.ok (expectedGroups fixtureRows) ∧
    chainLe strLe ((expectedGroups fixtureRows).map (fun g => g.Name)) = true ∧
    ∀ g ∈ expectedGroups fixtureRows, chainLe strLe g.Permissions = true :=
  publicUserRolePermissions_grouping fixtureRows (by decide) (by decide) (by decide)

/-- Claim C9 (amended): every modelled operation returns its failure as an error
value rather than panicking — the validators, password and OTP verification, the
identifier lookups, AddUserRole, and the role-permission grouping on row sequences
whose first row carries a nonempty role id — except at sys.Must around the hashing
primitive: HashPassword returns the hash of a password of at most 72 bytes and
panics exactly on longer ones, SetPassword and CreateStandardUser never panic for
request passwords of at most 72 bytes and panic only on over-length ones, CreateOtp
(hashing the decimal timestamp, at most 20 bytes for a 64-bit value) never panics,
and the grouping loop panics on a nonempty row sequence whose first role id is the
empty string. -/
theorem core_operations_panic_boundary (db : Store) (salt now : Nat)
    (uuid password q id : String) (u : AuthUser) (h : BcryptHash) (req : SignupReq)
    (rows : List RolePermRow) :
    (password.utf8ByteSize ≤ 72 →
      HashPassword salt password =
        GoResult.ok { cost := bcryptDefaultCost, salt := salt, key := password }) ∧
    (72 < password.utf8ByteSize →
      HashPassword salt password =
        GoResult.panicked "bcrypt: password length exceeds 72 bytes") ∧
    (CheckPasswordsMatch h q = GoResult.ok () ∨
      CheckPasswordsMatch h q = GoResult.err "passwords do not match") ∧
    (CheckOtpValid u h = GoResult.ok () ∨
      CheckOtpValid u h = GoResult.err "one time code has expired") ∧
    (u.Updated < 2 ^ 64 →
      CreateOtp salt u =
        GoResult.ok { cost := bcryptDefaultCost, salt := salt, key := FormatUint u.Updated }) ∧
    (CheckPassword q = GoResult.ok () ∨ ∃ e, CheckPassword q = GoResult.err e) ∧
    (CheckUsername q = GoResult.ok () ∨ ∃ e, CheckUsername q = GoResult.err e) ∧
    (CheckName q = GoResult.ok () ∨ ∃ e, CheckName q = GoResult.err e) ∧
    (∀ e, (UserDb.FindUserById db id).1 ≠ GoResult.panicked e) ∧
    (∀ user role, (UserDb.AddUserRole db user role).2 =
      GoResult.err (role ++ " role not available")) ∧
    (password.utf8ByteSize ≤ 72 →
      ∀ e, (UserDb.SetPassword db salt now uuid password).2 ≠ GoResult.panicked e) ∧
    (∀ e, (UserDb.SetPassword db salt now uuid password).2 = GoResult.panicked e →
      CheckPassword password = GoResult.ok () ∧ 72 < password.utf8ByteSize) ∧
    (req.Password.utf8ByteSize ≤ 72 →
      ∀ e, (UserDb.CreateStandardUser db uuid salt now req).2 ≠ GoResult.panicked e) ∧
    (∀ e, (UserDb.CreateStandardUser db uuid salt now req).2 = GoResult.panicked e →
      72 < req.Password.utf8ByteSize) ∧
    (∀ r rest2, rows = r :: rest2 → r.role_uuid = "" →
      UserDb.PublicUserRolePermissions rows =
        GoResult.panicked "runtime error: index out of range") ∧
    ((∀ r, rows.head? = some r → r.role_uuid ≠ "") →
      ∃ gs, UserDb.PublicUserRolePermissions rows = GoResult.ok gs) := by
  refine ⟨fun hle => hashPassword_ok_of_le salt password hle,
    fun hgt => hashPassword_panicked_of_gt salt password hgt,
    checkPasswordsMatch_cases h q,
    checkOtpValid_cases u h,
    fun hupd => ?_,
    checkPassword_cases q,
    checkUsername_cases q,
    checkName_cases q,
    fun e => findUserById_no_panic db id e,
    fun user role => by rw [addUserRole_always_fails],
    fun hle e => setPassword_no_panic_of_le db salt now uuid password hle e,
    fun e hp => setPassword_panicked_inv db salt now uuid password e hp,
    fun hle e => createStandardUser_no_panic_of_le db uuid salt now req hle e,
    fun e hp => ?_,
    fun r rest2 hrows hr => ?_,
    fun hh => ?_⟩
  · unfold CreateOtp
    exact hashPassword_ok_of_le salt _
      (le_trans (FormatUint_utf8ByteSize_le u.Updated hupd) (by norm_num))
  · by_cases hle : req.Password.utf8ByteSize ≤ 72
    · exact absurd hp (createStandardUser_no_panic_of_le db uuid salt now req hle e)
    · omega
  · rw [hrows]
    exact publicUserRolePermissions_empty_first_uuid r rest2 hr
  · refine ⟨expectedGroups rows, ?_⟩
    have hloop := publicRolesLoop_spec rows.length rows "" [] le_rfl ?_
    · simpa [UserDb.PublicUserRolePermissions] using hloop
    · intro r hr
      have hmem : r ∈ rows := by
        cases rows with
        | nil => simp at hr
        | cons a t =>
          simp only [List.head?_cons, Option.some.injEq] at hr
          rw [← hr]
          simp
      simpa using hh r hr

/-- Witness for the amended claim C9: the hash returns in range, the OTP derivation
returns, and SetPassword does not panic, at concrete inputs. -/
theorem core_operations_panic_boundary_witness :
    HashPassword 0 "password3" =
      GoResult.ok { cost := bcryptDefaultCost, salt := 0, key := "password3" } ∧
    CreateOtp 0 bobUser =
      GoResult.ok { cost := bcryptDefaultCost, salt := 0, key := FormatUint bobUser.Updated } ∧
    (UserDb.SetPassword bobStore 0 6 "u2" "password3").2 ≠
      GoResult.panicked "bcrypt: password length exceeds 72 bytes" ∧
    (∃ gs, UserDb.PublicUserRolePermissions fixtureRows = GoResult.ok gs) := by
  have hmain := core_operations_panic_boundary bobStore 0 6 "u2" "password3" "pw"
    "missing" bobUser { cost := bcryptDefaultCost, salt := 1, key := "x" } bobReq
    fixtureRows
  refine ⟨hmain.1 (by decide), hmain.2.2.2.2.1 (by decide), ?_, ?_⟩
  · exact hmain.2.2.2.2.2.2.2.2.2.2.1 (by decide) "bcrypt: password length exceeds 72 bytes"
  · exact hmain.2.2.2.2.2.2.2.2.2.2.2.2.2.2.2 (by decide)

end GoAuth
